import Mathlib

/-!
Verification of the `webservice` repository (Go): a single-slot timestamp
store, an HTTP front end with three routes, and a one-shot bootstrap client.

The embedding models `src/main.go` for a 64-bit platform (Go `int` = 64
bits, as assumed throughout the spec).  Machine `int64` values are `Int`
with explicit two's-complement wrapping (`wrap64`) exactly where the Go
`time` package performs wrapping arithmetic.
-/

/-- Two's-complement wrap of an integer into the `int64` range
`[-2^63, 2^63)`.  Go signed-integer overflow is defined to wrap. -/
def wrap64 (x : Int) : Int :=
  (x + 9223372036854775808) % 18446744073709551616 - 9223372036854775808

/-- `x` lies in the `int64` range. -/
def Int64Range (x : Int) : Prop :=
  -9223372036854775808 ≤ x ∧ x < 9223372036854775808

instance (x : Int) : Decidable (Int64Range x) := by
  unfold Int64Range; infer_instance

/-- Seconds between the Go `time` package internal epoch (Jan 1, year 1)
and the Unix epoch: `unixToInternal` in the Go runtime. -/
def unixToInternal : Int := 62135596800

/-- A Go `time.Time` as this program uses it: internal seconds and
nanoseconds (no monotonic clock reading, location irrelevant here). -/
structure GoTime where
  sec : Int
  nsec : Int
deriving DecidableEq, Repr

/-- `time.Unix(sec, 0)`: internal seconds are `sec + unixToInternal`,
computed with wrapping `int64` addition. -/
def timeUnix (sec : Int) : GoTime :=
  { sec := wrap64 (sec + unixToInternal), nsec := 0 }

/-- `time.Time.IsZero`: the time is the zero instant (internal seconds and
nanoseconds both zero). -/
def GoTime.isZero (t : GoTime) : Bool :=
  t.sec == 0 && t.nsec == 0

/-- `time.Time.Unix()`: internal seconds minus `unixToInternal`, with
wrapping `int64` subtraction. -/
def GoTime.unixSec (t : GoTime) : Int :=
  wrap64 (t.sec - unixToInternal)

/-- `NewInMemoryTimestampStore` (main.go:42-47): the slot initially holds
the zero `time.Time`. -/
def NewInMemoryTimestampStore : GoTime := { sec := 0, nsec := 0 }

/-- `InMemoryTimestampStore.GetTimestamp` (main.go:49-59): `0` when the
stored time is the zero instant, otherwise its Unix seconds. -/
def GetTimestamp (s : GoTime) : Int :=
  if s.isZero then 0 else s.unixSec

/-- `InMemoryTimestampStore.StoreTimestamp` (main.go:61-65): replace the
slot with `time.Unix(timestamp, 0)`. -/
def StoreTimestamp (_ : GoTime) (timestamp : Int) : GoTime :=
  timeUnix timestamp

section WrapLemmas

theorem wrap64_range (x : Int) :
    -9223372036854775808 ≤ wrap64 x ∧ wrap64 x < 9223372036854775808 := by
  unfold wrap64
  have h1 : 0 ≤ (x + 9223372036854775808) % 18446744073709551616 :=
    Int.emod_nonneg _ (by norm_num)
  have h2 : (x + 9223372036854775808) % 18446744073709551616 <
      18446744073709551616 :=
    Int.emod_lt_of_pos _ (by norm_num)
  omega

theorem wrap64_eq_self (x : Int) (h : Int64Range x) : wrap64 x = x := by
  obtain ⟨h1, h2⟩ := h
  unfold wrap64
  rw [Int.emod_eq_of_lt (by omega) (by omega)]
  omega

theorem wrap64_sub_multiple (x k : Int) :
    wrap64 (x - 18446744073709551616 * k) = wrap64 x := by
  unfold wrap64
  have h : x - 18446744073709551616 * k + 9223372036854775808 =
      x + 9223372036854775808 + 18446744073709551616 * (-k) := by ring
  rw [h, Int.add_mul_emod_self_left]

theorem wrap64_decomp (x : Int) :
    ∃ k : Int, wrap64 x = x - 18446744073709551616 * k := by
  refine ⟨(x + 9223372036854775808) / 18446744073709551616, ?_⟩
  unfold wrap64
  rw [Int.emod_def]
  ring

end WrapLemmas

section StoreLemmas

/-- The stored `time.Unix(v, 0)` is the zero instant exactly for
`v = -unixToInternal = -62135596800`, within the `int64` range. -/
theorem timeUnix_isZero_iff (v : Int) (h : Int64Range v) :
    (timeUnix v).isZero = true ↔ v = -62135596800 := by
  obtain ⟨h1, h2⟩ := h
  unfold timeUnix GoTime.isZero
  simp only [Bool.and_eq_true, beq_iff_eq, and_true]
  constructor
  · intro hz
    obtain ⟨k, hk⟩ := wrap64_decomp (v + unixToInternal)
    rw [hk] at hz
    unfold unixToInternal at hz
    omega
  · intro hv
    subst hv
    show wrap64 (-62135596800 + unixToInternal) = 0
    unfold unixToInternal
    norm_num
    exact wrap64_eq_self 0 (by constructor <;> norm_num)

/-- Store-then-get on the in-memory store: the identity on `int64` values,
except that `-62135596800` collapses to `0` (it becomes the zero time). -/
theorem getTimestamp_storeTimestamp (s : GoTime) (v : Int)
    (h : Int64Range v) :
    GetTimestamp (StoreTimestamp s v) =
      if v = -62135596800 then 0 else v := by
  unfold GetTimestamp StoreTimestamp
  by_cases hz : v = -62135596800
  · rw [if_pos ((timeUnix_isZero_iff v h).mpr hz), if_pos hz]
  · rw [if_neg (fun hc => hz ((timeUnix_isZero_iff v h).mp hc)), if_neg hz]
    unfold timeUnix GoTime.unixSec
    obtain ⟨k, hk⟩ := wrap64_decomp (v + unixToInternal)
    simp only [hk]
    have harg : v + unixToInternal - 18446744073709551616 * k -
        unixToInternal = v - 18446744073709551616 * k := by ring
    rw [harg, wrap64_sub_multiple]
    exact wrap64_eq_self v h

end StoreLemmas


/-- Go digit test from `strconv` parsing: ASCII `'0'` through `'9'`. -/
def isDigitChar (c : Char) : Bool :=
  48 ≤ c.toNat && c.toNat ≤ 57

/-- Accumulate base-10 digits left to right; fail on any non-digit. -/
def digitsVal (cs : List Char) (acc : Nat) : Option Nat :=
  match cs with
  | [] => some acc
  | c :: rest =>
    if isDigitChar c then digitsVal rest (acc * 10 + (c.toNat - 48))
    else none

/-- A nonempty all-digit run, as `strconv` requires after the sign. -/
def parseDigits (cs : List Char) : Option Nat :=
  match cs with
  | [] => none
  | _ :: _ => digitsVal cs 0

/-- Sign consumption of `strconv.ParseInt`: is the leading byte a minus
sign? -/
def signOf (cs : List Char) : Bool :=
  match cs with
  | [] => false
  | c :: _ => c == '-'

/-- Sign consumption of `strconv.ParseInt`: the bytes after dropping an
optional leading `+` or `-`. -/
def digitsOf (cs : List Char) : List Char :=
  match cs with
  | [] => []
  | c :: rest => if c == '-' || c == '+' then rest else c :: rest

/-- The signed value of a digit run: negated when the sign was `-`. -/
def intOfParts : Bool → Nat → Int
  | true, n => -(n : Int)
  | false, n => (n : Int)

/-- Range check of `strconv.ParseInt` with bit size 64: the signed value
must fit in `int64`, otherwise a range error. -/
def parseIntFinish (neg : Bool) : Option Nat → Option Int
  | none => none
  | some n =>
    if Int64Range (intOfParts neg n) then some (intOfParts neg n) else none

/-- `strconv.ParseInt(s, 10, 0)` on a 64-bit platform (bit size 0 means
`int`, 64 bits): optional `+`/`-` sign, then a nonempty run of decimal
digits whose signed value fits in `int64`; `none` on any syntax or range
error (the call site only tests `err != nil`). -/
def ParseInt (s : String) : Option Int :=
  parseIntFinish (signOf s.data) (parseDigits (digitsOf s.data))

/-- ASCII character of a decimal digit value. -/
def digitChar (d : Nat) : Char := Char.ofNat (48 + d)

/-- Big-endian decimal digits of `n`; the first argument is structural
fuel (`n` itself suffices, since `n / 10` shrinks faster than the fuel). -/
def natDigitsAux : Nat → Nat → List Char
  | 0, _ => []
  | fuel + 1, n =>
    if n = 0 then [] else natDigitsAux fuel (n / 10) ++ [digitChar (n % 10)]

/-- Decimal digit string of a natural number (Go `strconv` formatting). -/
def formatNat (n : Nat) : String :=
  if n = 0 then "0" else { data := natDigitsAux n n }

/-- `strconv.FormatInt(v, 10)`: decimal text with a leading `-` for
negative values.  Also the text `fmt.Fprint` produces for an `int64`. -/
def FormatInt (v : Int) : String :=
  if v < 0 then "-" ++ formatNat (-v).toNat else formatNat v.toNat

section ParseFormatLemmas

theorem parseIntFinish_some (neg : Bool) (n : Nat) :
    parseIntFinish neg (some n) =
      if Int64Range (intOfParts neg n) then some (intOfParts neg n)
      else none := rfl

theorem digitsVal_append_some (ds es : List Char) :
    ∀ a b, digitsVal ds a = some b →
      digitsVal (ds ++ es) a = digitsVal es b := by
  induction ds with
  | nil =>
    intro a b h
    simp only [digitsVal] at h
    injection h with h
    subst h
    rfl
  | cons c rest ih =>
    intro a b h
    rw [List.cons_append]
    have hL : digitsVal (c :: (rest ++ es)) a =
        if isDigitChar c then digitsVal (rest ++ es) (a * 10 + (c.toNat - 48))
        else none := rfl
    have hH : digitsVal (c :: rest) a =
        if isDigitChar c then digitsVal rest (a * 10 + (c.toNat - 48))
        else none := rfl
    rw [hH] at h
    rw [hL]
    by_cases hc : isDigitChar c
    · rw [if_pos hc] at h ⊢
      exact ih _ _ h
    · rw [if_neg hc] at h
      exact absurd h (by simp)

theorem digitChar_isDigit (d : Nat) (hd : d < 10) :
    isDigitChar (digitChar d) = true ∧ (digitChar d).toNat = 48 + d := by
  interval_cases d <;> exact ⟨by decide, by decide⟩

theorem digitsVal_natDigitsAux (fuel : Nat) :
    ∀ n a, n ≤ fuel →
      digitsVal (natDigitsAux fuel n) a =
        some (a * 10 ^ (natDigitsAux fuel n).length + n) := by
  induction fuel with
  | zero =>
    intro n a hn
    have h0 : n = 0 := Nat.le_zero.mp hn
    subst h0
    simp [natDigitsAux, digitsVal]
  | succ fuel ih =>
    intro n a hn
    by_cases h0 : n = 0
    · subst h0; simp [natDigitsAux, digitsVal]
    · have hdiv : n / 10 ≤ fuel := by omega
      have hstep : natDigitsAux (fuel + 1) n =
          natDigitsAux fuel (n / 10) ++ [digitChar (n % 10)] := by
        simp [natDigitsAux, h0]
      obtain ⟨hdig, htn⟩ := digitChar_isDigit (n % 10) (Nat.mod_lt n (by omega))
      rw [hstep,
        digitsVal_append_some _ _ a _ (ih (n / 10) a hdiv)]
      unfold digitsVal
      rw [if_pos hdig, htn]
      unfold digitsVal
      have hsub : 48 + n % 10 - 48 = n % 10 := by omega
      rw [hsub]
      simp only [List.length_append, List.length_cons, List.length_nil,
        Nat.zero_add]
      congr 1
      calc (a * 10 ^ (natDigitsAux fuel (n / 10)).length + n / 10) * 10 +
            n % 10
          = a * (10 ^ (natDigitsAux fuel (n / 10)).length * 10) +
            (n / 10 * 10 + n % 10) := by ring
        _ = a * (10 ^ (natDigitsAux fuel (n / 10)).length * 10) + n := by
            congr 1
            omega
        _ = a * 10 ^ ((natDigitsAux fuel (n / 10)).length + 1) + n := by
            rw [pow_succ]

theorem natDigitsAux_ne_nil (fuel n : Nat) (h0 : 0 < n) (hn : n ≤ fuel) :
    natDigitsAux fuel n ≠ [] := by
  cases fuel with
  | zero => omega
  | succ fuel =>
    have hne : n ≠ 0 := by omega
    simp [natDigitsAux, hne]

theorem parseDigits_formatNat (n : Nat) :
    parseDigits (formatNat n).data = some n := by
  by_cases h0 : n = 0
  · subst h0; decide
  · have hne : natDigitsAux n n ≠ [] :=
      natDigitsAux_ne_nil n n (by omega) (le_refl n)
    have hdata : (formatNat n).data = natDigitsAux n n := by
      simp [formatNat, h0]
    have hval := digitsVal_natDigitsAux n n 0 (le_refl n)
    rw [hdata]
    cases hcs : natDigitsAux n n with
    | nil => exact absurd hcs hne
    | cons c rest =>
      rw [hcs] at hval
      unfold parseDigits
      rw [hval]
      simp

/-- The leading character of a formatted natural number is a digit. -/
theorem formatNat_head_digit (n : Nat) :
    ∀ c rest, (formatNat n).data = c :: rest → isDigitChar c = true := by
  intro c rest hdata
  have hparse := parseDigits_formatNat n
  rw [hdata] at hparse
  unfold parseDigits digitsVal at hparse
  by_cases hc : isDigitChar c
  · exact hc
  · rw [if_neg hc] at hparse
    exact absurd hparse (by simp)

theorem ParseInt_FormatInt (v : Int) (h : Int64Range v) :
    ParseInt (FormatInt v) = some v := by
  by_cases hneg : v < 0
  · have hdata : (FormatInt v).data =
        '-' :: (formatNat (-v).toNat).data := by
      unfold FormatInt
      rw [if_pos hneg]
      rfl
    unfold ParseInt
    rw [hdata]
    have hsign : signOf ('-' :: (formatNat (-v).toNat).data) = true := rfl
    have hdigits : digitsOf ('-' :: (formatNat (-v).toNat).data) =
        (formatNat (-v).toNat).data := rfl
    rw [hsign, hdigits, parseDigits_formatNat, parseIntFinish_some]
    have hval : intOfParts true (-v).toNat = v := by
      show -(((-v).toNat : Int)) = v
      omega
    rw [hval, if_pos h]
  · have hdata : (FormatInt v).data = (formatNat v.toNat).data := by
      unfold FormatInt
      rw [if_neg hneg]
    unfold ParseInt
    rw [hdata]
    cases hcs : (formatNat v.toNat).data with
    | nil =>
      exfalso
      have hp := parseDigits_formatNat v.toNat
      rw [hcs] at hp
      exact absurd hp (by unfold parseDigits; simp)
    | cons c rest =>
      have hcdig : isDigitChar c = true :=
        formatNat_head_digit v.toNat c rest hcs
      have hcm : (c == '-') = false := by
        apply beq_eq_false_iff_ne.mpr
        intro hc
        subst hc
        exact absurd hcdig (by decide)
      have hcp : (c == '+') = false := by
        apply beq_eq_false_iff_ne.mpr
        intro hc
        subst hc
        exact absurd hcdig (by decide)
      have hsign : signOf (c :: rest) = false := by
        unfold signOf
        exact hcm
      have hdigits : digitsOf (c :: rest) = c :: rest := by
        simp [digitsOf, hcm, hcp]
      rw [hsign, hdigits, ← hcs, parseDigits_formatNat, parseIntFinish_some]
      have hval : intOfParts false v.toNat = v := by
        show ((v.toNat : Int)) = v
        omega
      rw [hval, if_pos h]

end ParseFormatLemmas

/-- One operation a handler performs on its `http.ResponseWriter`:
setting or deleting a header, committing a status code, or writing body
bytes.  Handlers are embedded as the exact sequence of these operations. -/
inductive WAction where
  | setHeader (key val : String)
  | delHeader (key : String)
  | writeHeader (code : Nat)
  | write (s : String)
deriving DecidableEq, Repr

/-- The request body as the POST handler can observe it: absent
(`r.Body == nil`), present but failing `io.ReadAll`, or fully read bytes. -/
inductive Body where
  | absent
  | readError
  | bytes (s : String)
deriving DecidableEq, Repr

/-- Status code of a response, per `net/http` semantics: the first
`WriteHeader` commits the status; a `Write` before any `WriteHeader`
commits the implicit 200, as does returning without writing anything. -/
def statusOf : List WAction → Nat
  | [] => 200
  | .writeHeader c :: _ => c
  | .write _ :: _ => 200
  | .setHeader _ _ :: rest => statusOf rest
  | .delHeader _ :: rest => statusOf rest

/-- Body of a response: the concatenation of everything written. -/
def bodyOf : List WAction → String
  | [] => ""
  | .write s :: rest => s ++ bodyOf rest
  | _ :: rest => bodyOf rest

/-- The Content-Type header the response carries: the last value set
before the response is committed by the first `WriteHeader` or `Write`
(later header mutations are not sent).  `net/http` never sniffs a
Content-Type when the body is empty, so an unset header stays absent. -/
def contentTypeAux : List WAction → Option String → Option String
  | [], ct => ct
  | .writeHeader _ :: _, ct => ct
  | .write _ :: _, ct => ct
  | .setHeader k v :: rest, ct =>
    contentTypeAux rest (if k = "Content-Type" then some v else ct)
  | .delHeader k :: rest, ct =>
    contentTypeAux rest (if k = "Content-Type" then none else ct)

def contentTypeOf (tr : List WAction) : Option String :=
  contentTypeAux tr none

/-- `http.Error(w, msg, code)` from `net/http`: sets the plain-text
content type, commits the code, and writes the message with a trailing
newline (`fmt.Fprintln`). -/
def httpError (msg : String) (code : Nat) : List WAction :=
  [ .delHeader "Content-Length",
    .setHeader "Content-Type" "text/plain; charset=utf-8",
    .setHeader "X-Content-Type-Options" "nosniff",
    .writeHeader code,
    .write (msg ++ "\n") ]

/-- `TimestampServer.getTimestamp` (main.go:87-99): set the content type,
read the store once into `timestamp`, send 404 when it is `0`, then print
it with `fmt.Fprint`. -/
def getTimestamp (s : GoTime) : List WAction :=
  [WAction.setHeader "Content-Type" "text/plain"] ++
  (if GetTimestamp s = 0 then [WAction.writeHeader 404] else []) ++
  [WAction.write (FormatInt (GetTimestamp s))]

/-- The tail of `TimestampServer.storeTimestamp` after `io.ReadAll`
succeeded, keyed on the `strconv.ParseInt` outcome: reply via
`http.Error` with 400 on a parse error, otherwise store the parsed value
and reply 202. -/
def storeBytes (s : GoTime) : Option Int → GoTime × List WAction
  | none => (s, httpError "Invalid request body" 400)
  | some timestamp => (StoreTimestamp s timestamp, [.writeHeader 202])

/-- `TimestampServer.storeTimestamp` (main.go:101-122): with a `nil` body
do nothing (fall through to the implicit 200); on an `io.ReadAll` error
reply via `http.Error` with 400; otherwise parse and continue. -/
def storeTimestamp (s : GoTime) (b : Body) : GoTime × List WAction :=
  match b with
  | .absent => (s, [])
  | .readError => (s, httpError "Invalid request body" 400)
  | .bytes str => storeBytes s (ParseInt str)

/-- `TimestampServer.notFoundHandler` (main.go:124-132). -/
def notFoundHandler : List WAction :=
  [ .setHeader "Content-Type" "text/plain",
    .writeHeader 404,
    .write "404 - Page not found" ]

/-- The routing of `NewTimestampServer` (main.go:72-85) under the Go 1.22
`http.ServeMux` pattern rules, for canonical request paths (`ServeMux`
301-redirects non-canonical paths before any handler runs): the pattern
`GET /timestamp` matches GET and also HEAD requests, `POST /timestamp`
matches POST, and the method-less pattern `/` catches everything else. -/
def ServeHTTP (s : GoTime) (method path : String) (b : Body) :
    GoTime × List WAction :=
  if path = "/timestamp" ∧ (method = "GET" ∨ method = "HEAD") then
    (s, getTimestamp s)
  else if path = "/timestamp" ∧ method = "POST" then
    storeTimestamp s b
  else
    (s, notFoundHandler)

/-- A store slot together with the log of `StoreTimestamp` calls made on
it, mirroring how the repository's own test stub counts `storeCalls`. -/
structure LoggedStore where
  time : GoTime
  storeCalls : List Int
deriving DecidableEq, Repr

def LoggedStore.store (st : LoggedStore) (v : Int) : LoggedStore :=
  { time := StoreTimestamp st.time v, storeCalls := st.storeCalls ++ [v] }

def LoggedStore.get (st : LoggedStore) : Int :=
  GetTimestamp st.time

/-- `Client.Run` (main.go:25-31): store the argument, read the store
back, and print the read-back value in decimal followed by a newline
(`fmt.Fprintln`) to the output sink.  Returns the final store and the
text written to the sink. -/
def clientRun (st : LoggedStore) (timestamp : Int) : LoggedStore × String :=
  let st1 := st.store timestamp
  let storedTimestamp := st1.get
  let storedTimestampStr := FormatInt storedTimestamp
  (st1, storedTimestampStr ++ "\n")

section HandlerLemmas

theorem string_append_empty (s : String) : s ++ "" = s := by
  cases s with
  | mk data =>
    show String.mk (data ++ []) = String.mk data
    rw [List.append_nil]

theorem formatNat_ne_empty (n : Nat) : formatNat n ≠ "" := by
  unfold formatNat
  by_cases h : n = 0
  · rw [if_pos h]; decide
  · rw [if_neg h]
    intro hc
    have hdata : natDigitsAux n n = [] := congrArg String.data hc
    exact natDigitsAux_ne_nil n n (by omega) (le_refl n) hdata

theorem FormatInt_ne_empty (v : Int) : FormatInt v ≠ "" := by
  unfold FormatInt
  by_cases h : v < 0
  · rw [if_pos h]
    intro hc
    have hdata : '-' :: (formatNat (-v).toNat).data = [] :=
      congrArg String.data hc
    exact List.cons_ne_nil _ _ hdata
  · rw [if_neg h]
    exact formatNat_ne_empty _

theorem ServeHTTP_get (s : GoTime) (b : Body) :
    ServeHTTP s "GET" "/timestamp" b = (s, getTimestamp s) := by
  unfold ServeHTTP
  rw [if_pos ⟨rfl, Or.inl rfl⟩]

theorem ServeHTTP_head (s : GoTime) (b : Body) :
    ServeHTTP s "HEAD" "/timestamp" b = (s, getTimestamp s) := by
  unfold ServeHTTP
  rw [if_pos ⟨rfl, Or.inr rfl⟩]

theorem ServeHTTP_post (s : GoTime) (b : Body) :
    ServeHTTP s "POST" "/timestamp" b = storeTimestamp s b := by
  unfold ServeHTTP
  rw [if_neg (by decide), if_pos ⟨rfl, rfl⟩]

theorem storeTimestamp_parse_ok (s : GoTime) (str : String) (v : Int)
    (h : ParseInt str = some v) :
    storeTimestamp s (Body.bytes str) =
      (StoreTimestamp s v, [WAction.writeHeader 202]) := by
  show storeBytes s (ParseInt str) = _
  rw [h]
  rfl

theorem storeTimestamp_parse_err (s : GoTime) (str : String)
    (h : ParseInt str = none) :
    storeTimestamp s (Body.bytes str) =
      (s, httpError "Invalid request body" 400) := by
  show storeBytes s (ParseInt str) = _
  rw [h]
  rfl

theorem bodyOf_getTimestamp (s : GoTime) :
    bodyOf (getTimestamp s) = FormatInt (GetTimestamp s) := by
  unfold getTimestamp
  by_cases h : GetTimestamp s = 0
  · rw [if_pos h]
    show FormatInt (GetTimestamp s) ++ "" = _
    exact string_append_empty _
  · rw [if_neg h]
    show FormatInt (GetTimestamp s) ++ "" = _
    exact string_append_empty _

theorem contentTypeOf_getTimestamp (s : GoTime) :
    contentTypeOf (getTimestamp s) = some "text/plain" := by
  unfold getTimestamp
  by_cases h : GetTimestamp s = 0
  · rw [if_pos h]; rfl
  · rw [if_neg h]; rfl

theorem statusOf_getTimestamp (s : GoTime) :
    statusOf (getTimestamp s) = if GetTimestamp s = 0 then 404 else 200 := by
  unfold getTimestamp
  by_cases h : GetTimestamp s = 0
  · rw [if_pos h, if_pos h]; rfl
  · rw [if_neg h, if_neg h]; rfl

end HandlerLemmas

/-- C1: the round-trip claim fails at the concrete input
`v = -62135596800`: POST of its decimal text followed by GET yields body
`"0"`, not `"-62135596800"` (the stored `time.Unix(v, 0)` is the zero
instant, which `GetTimestamp` reports as `0`). -/
theorem C1_counterexample :
    FormatInt (-62135596800) = "-62135596800" ∧
    bodyOf (ServeHTTP
      (ServeHTTP NewInMemoryTimestampStore "POST" "/timestamp"
        (Body.bytes "-62135596800")).1
      "GET" "/timestamp" Body.absent).2 = "0" ∧
    "0" ≠ "-62135596800" := by
  refine ⟨by decide, by decide, by decide⟩

/-- C1 (amended): for every int64 value `v` other than `-62135596800`,
writing `v` via POST /timestamp (body = the base-10 decimal text of `v`)
and then performing GET /timestamp yields a response body that is exactly
the base-10 decimal text of `v`. -/
theorem C1_roundtrip_amended (s : GoTime) (v : Int)
    (h : Int64Range v) (hv : v ≠ -62135596800) :
    bodyOf (ServeHTTP
      (ServeHTTP s "POST" "/timestamp" (Body.bytes (FormatInt v))).1
      "GET" "/timestamp" Body.absent).2 = FormatInt v := by
  have hfst : (ServeHTTP s "POST" "/timestamp"
      (Body.bytes (FormatInt v))).1 = StoreTimestamp s v := by
    rw [ServeHTTP_post,
      storeTimestamp_parse_ok s (FormatInt v) v (ParseInt_FormatInt v h)]
  rw [hfst, ServeHTTP_get]
  show bodyOf (getTimestamp (StoreTimestamp s v)) = FormatInt v
  rw [bodyOf_getTimestamp, getTimestamp_storeTimestamp s v h, if_neg hv]

/-- C1 amended witness at `v = -7` on a fresh store. -/
theorem C1_roundtrip_amended_witness :
    bodyOf (ServeHTTP
      (ServeHTTP NewInMemoryTimestampStore "POST" "/timestamp"
        (Body.bytes (FormatInt (-7)))).1
      "GET" "/timestamp" Body.absent).2 = FormatInt (-7) :=
  C1_roundtrip_amended NewInMemoryTimestampStore (-7) (by decide) (by decide)

/-- C2: the claim fails at a concrete request: the successful
POST /timestamp response (status 202, empty body) carries no Content-Type
header at all (`net/http` adds none when nothing is written). -/
theorem C2_counterexample :
    contentTypeOf (ServeHTTP NewInMemoryTimestampStore "POST" "/timestamp"
      (Body.bytes "5")).2 = none ∧
    statusOf (ServeHTTP NewInMemoryTimestampStore "POST" "/timestamp"
      (Body.bytes "5")).2 = 202 := by
  refine ⟨by decide, by decide⟩

/-- C2 (amended): every response with a nonempty body carries a
Content-Type header whose value begins with `text/plain` (the handlers
set `text/plain`; the 400 error path sets `text/plain; charset=utf-8`),
while every empty-body response (successful POST and nil-body POST)
carries no Content-Type header. -/
theorem C2_contentType_amended (s : GoTime) (method path : String)
    (b : Body) :
    (bodyOf (ServeHTTP s method path b).2 ≠ "" →
      ∃ ct, contentTypeOf (ServeHTTP s method path b).2 = some ct ∧
        List.isPrefixOf "text/plain".data ct.data = true) ∧
    (bodyOf (ServeHTTP s method path b).2 = "" →
      contentTypeOf (ServeHTTP s method path b).2 = none) := by
  unfold ServeHTTP
  split_ifs with h1 h2
  · constructor
    · intro _
      exact ⟨"text/plain", contentTypeOf_getTimestamp s, by decide⟩
    · intro hbody
      exfalso
      apply FormatInt_ne_empty (GetTimestamp s)
      rw [← bodyOf_getTimestamp s]
      exact hbody
  · cases b with
    | absent =>
      exact ⟨fun hbody => absurd rfl hbody, fun _ => rfl⟩
    | readError =>
      constructor
      · intro _
        exact ⟨"text/plain; charset=utf-8", rfl, by decide⟩
      · intro hbody
        have hb : bodyOf (httpError "Invalid request body" 400) = "" := hbody
        exact absurd hb (by decide)
    | bytes str =>
      cases hp : ParseInt str with
      | none =>
        rw [storeTimestamp_parse_err s str hp]
        constructor
        · intro _
          exact ⟨"text/plain; charset=utf-8", rfl, by decide⟩
        · intro hbody
          have hb : bodyOf (httpError "Invalid request body" 400) = "" :=
            hbody
          exact absurd hb (by decide)
      | some v =>
        rw [storeTimestamp_parse_ok s str v hp]
        exact ⟨fun hbody => absurd rfl hbody, fun _ => rfl⟩
  · constructor
    · intro _
      exact ⟨"text/plain", rfl, by decide⟩
    · intro hbody
      have hb : bodyOf notFoundHandler = "" := hbody
      exact absurd hb (by decide)

/-- C2 amended witness: a GET on a fresh store has a nonempty body and
carries Content-Type `text/plain`. -/
theorem C2_contentType_amended_witness :
    ∃ ct, contentTypeOf (ServeHTTP NewInMemoryTimestampStore "GET"
      "/timestamp" Body.absent).2 = some ct ∧
      List.isPrefixOf "text/plain".data ct.data = true :=
  (C2_contentType_amended NewInMemoryTimestampStore "GET" "/timestamp"
    Body.absent).1 (by decide)

/-- C3: the claim's body is off by a trailing newline at the concrete
input `"abc"`: `http.Error` writes the message with `fmt.Fprintln`, so
the 400 body is `"Invalid request body\n"`, not exactly
`"Invalid request body"`. -/
theorem C3_counterexample :
    bodyOf (ServeHTTP NewInMemoryTimestampStore "POST" "/timestamp"
      (Body.bytes "abc")).2 = "Invalid request body\n" ∧
    "Invalid request body\n" ≠ "Invalid request body" := by
  refine ⟨by decide, by decide⟩

/-- C3 (amended): for every POST /timestamp request whose body is present
but does not parse as a base-10 signed 64-bit integer (including empty
body, non-numeric text, and int64 range overflow), the handler responds
with status 400 and body exactly `"Invalid request body\n"` (the message
plus the newline `http.Error` appends). -/
theorem C3_invalid_body_amended (s : GoTime) (str : String)
    (h : ParseInt str = none) :
    statusOf (ServeHTTP s "POST" "/timestamp" (Body.bytes str)).2 = 400 ∧
    bodyOf (ServeHTTP s "POST" "/timestamp" (Body.bytes str)).2 =
      "Invalid request body\n" := by
  rw [ServeHTTP_post, storeTimestamp_parse_err s str h]
  exact ⟨rfl, rfl⟩

/-- C3 amended witness at the non-numeric body `"abc"`, the empty body,
and the int64-overflow body `"9223372036854775808"`. -/
theorem C3_invalid_body_amended_witness :
    (statusOf (ServeHTTP NewInMemoryTimestampStore "POST" "/timestamp"
        (Body.bytes "abc")).2 = 400 ∧
      bodyOf (ServeHTTP NewInMemoryTimestampStore "POST" "/timestamp"
        (Body.bytes "abc")).2 = "Invalid request body\n") ∧
    (statusOf (ServeHTTP NewInMemoryTimestampStore "POST" "/timestamp"
        (Body.bytes "")).2 = 400 ∧
      bodyOf (ServeHTTP NewInMemoryTimestampStore "POST" "/timestamp"
        (Body.bytes "")).2 = "Invalid request body\n") ∧
    (statusOf (ServeHTTP NewInMemoryTimestampStore "POST" "/timestamp"
        (Body.bytes "9223372036854775808")).2 = 400 ∧
      bodyOf (ServeHTTP NewInMemoryTimestampStore "POST" "/timestamp"
        (Body.bytes "9223372036854775808")).2 = "Invalid request body\n") :=
  ⟨C3_invalid_body_amended NewInMemoryTimestampStore "abc" (by decide),
   C3_invalid_body_amended NewInMemoryTimestampStore "" (by decide),
   C3_invalid_body_amended NewInMemoryTimestampStore "9223372036854775808"
     (by decide)⟩

/-- C4: every POST /timestamp request answered with 400 (read failure or
parse failure) leaves the store exactly as it was: the error paths return
before `StoreTimestamp` is ever called. -/
theorem C4_error_preserves_store (s : GoTime) (b : Body)
    (h : statusOf (ServeHTTP s "POST" "/timestamp" b).2 = 400) :
    (ServeHTTP s "POST" "/timestamp" b).1 = s := by
  rw [ServeHTTP_post] at h ⊢
  cases b with
  | absent => rfl
  | readError => rfl
  | bytes str =>
    cases hp : ParseInt str with
    | none => rw [storeTimestamp_parse_err s str hp]
    | some v =>
      rw [storeTimestamp_parse_ok s str v hp] at h
      have h2 : (202 : Nat) = 400 := h
      exact absurd h2 (by decide)

/-- C4 witness: a 400-producing POST (body `"xy"`) on a fresh store
leaves the store unchanged. -/
theorem C4_error_preserves_store_witness :
    (ServeHTTP NewInMemoryTimestampStore "POST" "/timestamp"
      (Body.bytes "xy")).1 = NewInMemoryTimestampStore :=
  C4_error_preserves_store NewInMemoryTimestampStore (Body.bytes "xy")
    (by decide)

/-- C5: a POST /timestamp request with no body at all performs no store
mutation and no writer action, hence the default status 200 — in contrast
to an empty-but-present body, which yields 400. -/
theorem C5_absent_body_default_ok (s : GoTime) :
    ServeHTTP s "POST" "/timestamp" Body.absent = (s, []) ∧
    statusOf (ServeHTTP s "POST" "/timestamp" Body.absent).2 = 200 ∧
    statusOf (ServeHTTP s "POST" "/timestamp" (Body.bytes "")).2 = 400 := by
  refine ⟨?_, ?_, ?_⟩
  · rw [ServeHTTP_post]
    rfl
  · rw [ServeHTTP_post]
    rfl
  · rw [ServeHTTP_post, storeTimestamp_parse_err s "" (by decide)]
    rfl

/-- C6: whenever the store reports `0`, GET /timestamp answers 404 and
the body `"0"` is still written — the trace is exactly: set the content
type, commit 404, then write `"0"`. -/
theorem C6_get_unset_store (s : GoTime) (b : Body)
    (h : GetTimestamp s = 0) :
    (ServeHTTP s "GET" "/timestamp" b).2 =
      [WAction.setHeader "Content-Type" "text/plain",
       WAction.writeHeader 404, WAction.write "0"] ∧
    statusOf (ServeHTTP s "GET" "/timestamp" b).2 = 404 ∧
    bodyOf (ServeHTTP s "GET" "/timestamp" b).2 = "0" := by
  rw [ServeHTTP_get]
  have htr : getTimestamp s =
      [WAction.setHeader "Content-Type" "text/plain",
       WAction.writeHeader 404, WAction.write "0"] := by
    unfold getTimestamp
    rw [h]
    decide
  show getTimestamp s = _ ∧ statusOf (getTimestamp s) = 404 ∧
    bodyOf (getTimestamp s) = "0"
  rw [htr]
  exact ⟨rfl, rfl, rfl⟩

/-- C6 witness: the fresh store reports `0`. -/
theorem C6_get_unset_store_witness :
    (ServeHTTP NewInMemoryTimestampStore "GET" "/timestamp"
      Body.absent).2 =
      [WAction.setHeader "Content-Type" "text/plain",
       WAction.writeHeader 404, WAction.write "0"] ∧
    statusOf (ServeHTTP NewInMemoryTimestampStore "GET" "/timestamp"
      Body.absent).2 = 404 ∧
    bodyOf (ServeHTTP NewInMemoryTimestampStore "GET" "/timestamp"
      Body.absent).2 = "0" :=
  C6_get_unset_store NewInMemoryTimestampStore Body.absent (by decide)

/-- C7: every POST /timestamp whose body parses as a base-10 signed
integer `v` stores `v` (the new store state is `StoreTimestamp` applied
to `v`) and answers 202 with an empty body. -/
theorem C7_post_success (s : GoTime) (str : String) (v : Int)
    (h : ParseInt str = some v) :
    ServeHTTP s "POST" "/timestamp" (Body.bytes str) =
      (StoreTimestamp s v, [WAction.writeHeader 202]) ∧
    statusOf (ServeHTTP s "POST" "/timestamp" (Body.bytes str)).2 = 202 ∧
    bodyOf (ServeHTTP s "POST" "/timestamp" (Body.bytes str)).2 = "" := by
  rw [ServeHTTP_post, storeTimestamp_parse_ok s str v h]
  exact ⟨rfl, rfl, rfl⟩

/-- C7 witness at the spec's scenario body `"1700000000"`. -/
theorem C7_post_success_witness :
    ServeHTTP NewInMemoryTimestampStore "POST" "/timestamp"
      (Body.bytes "1700000000") =
      (StoreTimestamp NewInMemoryTimestampStore 1700000000,
       [WAction.writeHeader 202]) ∧
    statusOf (ServeHTTP NewInMemoryTimestampStore "POST" "/timestamp"
      (Body.bytes "1700000000")).2 = 202 ∧
    bodyOf (ServeHTTP NewInMemoryTimestampStore "POST" "/timestamp"
      (Body.bytes "1700000000")).2 = "" :=
  C7_post_success NewInMemoryTimestampStore "1700000000" 1700000000
    (by decide)

/-- C8: the claim fails at the concrete request HEAD /timestamp (with
`5` stored): its method/path is neither GET /timestamp nor
POST /timestamp, yet the Go 1.22 `ServeMux` serves it with the GET
handler (a GET pattern also matches HEAD), so the status is 200 and the
handler writes `"5"` — not 404 with the not-found page. -/
theorem C8_routing_counterexample :
    statusOf (ServeHTTP (StoreTimestamp NewInMemoryTimestampStore 5)
      "HEAD" "/timestamp" Body.absent).2 = 200 ∧
    bodyOf (ServeHTTP (StoreTimestamp NewInMemoryTimestampStore 5)
      "HEAD" "/timestamp" Body.absent).2 = "5" ∧
    ¬(statusOf (ServeHTTP (StoreTimestamp NewInMemoryTimestampStore 5)
        "HEAD" "/timestamp" Body.absent).2 = 404 ∧
      bodyOf (ServeHTTP (StoreTimestamp NewInMemoryTimestampStore 5)
        "HEAD" "/timestamp" Body.absent).2 = "404 - Page not found") := by
  refine ⟨by decide, by decide, by decide⟩

/-- C8 (amended): every request whose method/path is not GET /timestamp,
not HEAD /timestamp (served by the GET handler under `ServeMux` method
matching) and not POST /timestamp gets status 404, body exactly
`"404 - Page not found"`, and content type `text/plain`. -/
theorem C8_routing_amended (s : GoTime) (method path : String) (b : Body)
    (h1 : ¬(path = "/timestamp" ∧ (method = "GET" ∨ method = "HEAD")))
    (h2 : ¬(path = "/timestamp" ∧ method = "POST")) :
    (ServeHTTP s method path b).2 = notFoundHandler ∧
    statusOf (ServeHTTP s method path b).2 = 404 ∧
    bodyOf (ServeHTTP s method path b).2 = "404 - Page not found" ∧
    contentTypeOf (ServeHTTP s method path b).2 = some "text/plain" := by
  unfold ServeHTTP
  rw [if_neg h1, if_neg h2]
  exact ⟨rfl, rfl, string_append_empty _, rfl⟩

/-- C8 amended witness at GET /nonexistent. -/
theorem C8_routing_amended_witness :
    (ServeHTTP NewInMemoryTimestampStore "GET" "/nonexistent"
      Body.absent).2 = notFoundHandler ∧
    statusOf (ServeHTTP NewInMemoryTimestampStore "GET" "/nonexistent"
      Body.absent).2 = 404 ∧
    bodyOf (ServeHTTP NewInMemoryTimestampStore "GET" "/nonexistent"
      Body.absent).2 = "404 - Page not found" ∧
    contentTypeOf (ServeHTTP NewInMemoryTimestampStore "GET" "/nonexistent"
      Body.absent).2 = some "text/plain" :=
  C8_routing_amended NewInMemoryTimestampStore "GET" "/nonexistent"
    Body.absent (by decide) (by decide)

/-- C9: `Client.Run(t)` performs exactly one store write (the call log
grows by exactly `[t]`), the written store state is `StoreTimestamp` of
`t`, and the text sent to the output sink is the decimal text of the
read-back value (which is `t` except for the zero-time collapse at
`-62135596800`) followed by a single newline. -/
theorem C9_client_run (st : LoggedStore) (t : Int) (h : Int64Range t) :
    (clientRun st t).1.storeCalls = st.storeCalls ++ [t] ∧
    (clientRun st t).1.time = StoreTimestamp st.time t ∧
    (clientRun st t).2 = FormatInt (GetTimestamp (StoreTimestamp st.time t))
      ++ "\n" ∧
    (clientRun st t).2 =
      FormatInt (if t = -62135596800 then 0 else t) ++ "\n" := by
  refine ⟨rfl, rfl, rfl, ?_⟩
  show FormatInt (GetTimestamp (StoreTimestamp st.time t)) ++ "\n" = _
  rw [getTimestamp_storeTimestamp st.time t h]

/-- C9 witness at `t = 1234` on a fresh logged store. -/
theorem C9_client_run_witness :
    (clientRun ⟨NewInMemoryTimestampStore, []⟩ 1234).1.storeCalls =
      [] ++ [(1234 : Int)] ∧
    (clientRun ⟨NewInMemoryTimestampStore, []⟩ 1234).1.time =
      StoreTimestamp NewInMemoryTimestampStore 1234 ∧
    (clientRun ⟨NewInMemoryTimestampStore, []⟩ 1234).2 =
      FormatInt (GetTimestamp
        (StoreTimestamp NewInMemoryTimestampStore 1234)) ++ "\n" ∧
    (clientRun ⟨NewInMemoryTimestampStore, []⟩ 1234).2 =
      FormatInt (if (1234 : Int) = -62135596800 then 0 else 1234) ++ "\n" :=
  C9_client_run ⟨NewInMemoryTimestampStore, []⟩ 1234 (by decide)

/-- C10: storing `-62135596800` (the Unix seconds of Go's zero
`time.Time`) makes `GetTimestamp` return `0` rather than the value,
because the stored `time.Unix(v, 0)` satisfies `IsZero`; within the int64
range this is the only value whose stored time is the zero instant, and
every other value reads back unchanged. -/
theorem C10_zero_time_collapse (s : GoTime) :
    GetTimestamp (StoreTimestamp s (-62135596800)) = 0 ∧
    (∀ v : Int, Int64Range v →
      ((timeUnix v).isZero = true ↔ v = -62135596800)) ∧
    (∀ v : Int, Int64Range v → v ≠ -62135596800 →
      GetTimestamp (StoreTimestamp s v) = v) := by
  refine ⟨?_, fun v hv => timeUnix_isZero_iff v hv, fun v hv hne => ?_⟩
  · have hz := getTimestamp_storeTimestamp s (-62135596800) (by decide)
    rwa [if_pos rfl] at hz
  · have hg := getTimestamp_storeTimestamp s v hv
    rwa [if_neg hne] at hg

/-- C10 witness at the collapsing value and at `v = 7`. -/
theorem C10_zero_time_collapse_witness :
    GetTimestamp (StoreTimestamp NewInMemoryTimestampStore
      (-62135596800)) = 0 ∧
    ((timeUnix (-62135596800)).isZero = true ↔
      (-62135596800 : Int) = -62135596800) ∧
    GetTimestamp (StoreTimestamp NewInMemoryTimestampStore 7) = 7 := by
  obtain ⟨ha, hb, hc⟩ := C10_zero_time_collapse NewInMemoryTimestampStore
  exact ⟨ha, hb (-62135596800) (by decide), hc 7 (by decide) (by decide)⟩
